import Mathlib

/-!
Verification of the streaming decompression / line-reassembly / pagination
pipeline of s3_streamed_batch.py.

The source's core is the generator get_lines (lines 83-100): per S3 chunk it
computes  lines = (leftover + decompressor.decompress(unconsumed_tail + chunk)).splitlines(),
pops the last split candidate as the new leftover while the decompressor has
not signaled end of stream, and yields the remaining candidates decoded as
UTF-8.  lambda_handler (lines 32-51) discards HEADER_LINES lines with next()
and then groups the rest into pages of PAGE_SIZE lines with chain/islice.

Byte strings are modelled as `List Nat` (one Nat per byte, values 0..255 by
convention; 10 = LF, 13 = CR).  The zlib decompressor and the S3 body are
external collaborators: they are modelled by an oracle (`GzipObject`) giving
the cumulative decompressed output after each count of compressed bytes fed,
the position where the gzip stream completes (end-of-stream flag), and the
position of the first byte the decompressor rejects, per the documented
zlib.decompressobj contract.
-/

abbrev ByteStr := List Nat

/-- Python `bytes.splitlines()`: split on the ASCII line boundaries LF (10),
CR (13) and CRLF (13,10); a terminator at the very end of the input does not
produce a trailing empty element. -/
def splitlines : ByteStr → List ByteStr
  | [] => []
  | 10 :: rest => [] :: splitlines rest
  | 13 :: 10 :: rest => [] :: splitlines rest
  | 13 :: rest => [] :: splitlines rest
  | b :: rest =>
    match splitlines rest with
    | [] => [[b]]
    | l :: ls => (b :: l) :: ls

/-- `true` iff the byte string contains no line-terminator byte. -/
def noTerm : ByteStr → Bool
  | [] => true
  | b :: t => decide (b ≠ 10) && decide (b ≠ 13) && noTerm t

/-- `true` iff the byte string starts with LF. -/
def headLF : ByteStr → Bool
  | 10 :: _ => true
  | _ => false

/-- `true` iff `b` is a UTF-8 continuation byte (0x80..0xBF). -/
def isCont (b : Nat) : Bool := 128 ≤ b && b < 192

/-- Python `bytes.decode('utf-8')` (strict): returns the decoded code points,
or `none` where CPython raises UnicodeDecodeError.  Rejects bare continuation
bytes, overlong encodings, surrogates (U+D800..U+DFFF), code points above
U+10FFFF and truncated sequences. -/
def utf8Decode : ByteStr → Option (List Nat)
  | [] => some []
  | b :: rest =>
    if b < 128 then (utf8Decode rest).map fun cs => b :: cs
    else if b < 194 then none
    else if b < 224 then
      match rest with
      | b1 :: rest1 =>
        if isCont b1 then
          (utf8Decode rest1).map fun cs => ((b - 192) * 64 + (b1 - 128)) :: cs
        else none
      | [] => none
    else if b < 240 then
      match rest with
      | b1 :: b2 :: rest2 =>
        if (if b = 224 then 160 ≤ b1 && b1 < 192
            else if b = 237 then 128 ≤ b1 && b1 < 160
            else isCont b1) && isCont b2 then
          (utf8Decode rest2).map fun cs =>
            ((b - 224) * 4096 + (b1 - 128) * 64 + (b2 - 128)) :: cs
        else none
      | _ => none
    else if b < 245 then
      match rest with
      | b1 :: b2 :: b3 :: rest3 =>
        if (if b = 240 then 144 ≤ b1 && b1 < 192
            else if b = 244 then 128 ≤ b1 && b1 < 144
            else isCont b1) && isCont b2 && isCont b3 then
          (utf8Decode rest3).map fun cs =>
            ((b - 240) * 262144 + (b1 - 128) * 4096 + (b2 - 128) * 64 + (b3 - 128)) :: cs
        else none
      | _ => none
    else none

/-- The `for line in lines: yield line.decode('utf-8')` loop of get_lines on
one chunk's candidate list: decoded values yielded so far, and `false` if a
candidate raised UnicodeDecodeError (aborting the generator there). -/
def yieldDecoded : List ByteStr → List (List Nat) × Bool
  | [] => ([], true)
  | c :: cs =>
    match utf8Decode c with
    | none => ([], false)
    | some s =>
      match yieldDecoded cs with
      | (rest, ok) => (s :: rest, ok)

/-- What one iteration of get_lines' chunk loop observes from the external
decompressor: either the newly produced decompressed bytes `delta` together
with the end-of-stream flag after the call, or a zlib.error raised by
`decompressor.decompress` (in which case the call returns nothing). -/
inductive ChunkOutcome where
  | ok (delta : ByteStr) (eof : Bool)
  | err
deriving DecidableEq

/-- How the get_lines generator terminates. -/
inductive GenEnd where
  | done
  | indexError
  | decompressionError
  | encodingError
deriving DecidableEq, BEq

/-- The get_lines generator (source lines 84-100), driven by the per-chunk
decompressor outcomes.  State `leftover` starts as b''.  Per chunk:
`lines = (leftover + delta).splitlines()`; if the decompressor has not
signaled eof, `lines.pop(-1)` becomes the new leftover (IndexError when the
candidate list is empty); each remaining candidate is decoded as UTF-8 and
yielded.  Returns (all values yielded, final leftover, how the generator
ended). -/
def runGen (leftover : ByteStr) : List ChunkOutcome → List (List Nat) × ByteStr × GenEnd
  | [] => ([], leftover, GenEnd.done)
  | ChunkOutcome.err :: _ => ([], leftover, GenEnd.decompressionError)
  | ChunkOutcome.ok delta eof :: rest =>
    if eof then
      if (yieldDecoded (splitlines (leftover ++ delta))).2 then
        ((yieldDecoded (splitlines (leftover ++ delta))).1 ++ (runGen leftover rest).1,
          (runGen leftover rest).2)
      else
        ((yieldDecoded (splitlines (leftover ++ delta))).1, leftover, GenEnd.encodingError)
    else
      match (splitlines (leftover ++ delta)).getLast? with
      | none => ([], leftover, GenEnd.indexError)
      | some last =>
        if (yieldDecoded (splitlines (leftover ++ delta)).dropLast).2 then
          ((yieldDecoded (splitlines (leftover ++ delta)).dropLast).1 ++ (runGen last rest).1,
            (runGen last rest).2)
        else
          ((yieldDecoded (splitlines (leftover ++ delta)).dropLast).1, last,
            GenEnd.encodingError)

-- sanity checks of the model on concrete inputs (Python semantics)
example : splitlines [97, 10] = [[97]] := by decide
example : splitlines [97, 13, 10, 98] = [[97], [98]] := by decide
example : splitlines [97, 13, 13, 10] = [[97], []] := by decide
example : splitlines [10, 10] = [[], []] := by decide
example : splitlines [] = [] := by decide
example : utf8Decode [72, 105] = some [72, 105] := by decide
example : utf8Decode [255] = none := by decide
example : utf8Decode [194, 128] = some [128] := by decide
example : utf8Decode [192, 128] = none := by decide
example : utf8Decode [237, 160, 128] = none := by decide
example : utf8Decode [226, 130, 172] = some [8364] := by decide
example : utf8Decode [240, 159, 152, 128] = some [128512] := by decide
example : utf8Decode [244, 143, 191, 191] = some [1114111] := by decide
example : utf8Decode [244, 144, 128, 128] = none := by decide
example : utf8Decode [194] = none := by decide

/-- Source line 21: chunk size to read from S3, in MiB. -/
def COMPRESSED_CHUNK_SIZE_MIB : Nat := 8

/-- Source line 89: chunk size passed to iter_chunks, in bytes. -/
def chunkSizeBytes : Nat := COMPRESSED_CHUNK_SIZE_MIB * 1024 ^ 2

/-- Source line 22: number of header lines to discard. -/
def HEADER_LINES : Nat := 2

/-- Source line 23: number of lines in a page/batch. -/
def PAGE_SIZE : Nat := 1000

/-- Oracle for one compressed S3 object fed to zlib.decompressobj(32+MAX_WBITS):
`len` is the object's byte length; `out n` is the cumulative decompressed
output available once the first `n` object bytes have been fed (so a chunk
covering bytes `[a, b)` yields `(out b).drop (out a).length`); `streamEnd` is
the byte position at which the gzip stream is complete (from there on
`decompressor.eof` is true), `none` when the object is truncated and the
stream never completes; `bad` is the position of the first byte the
decompressor rejects with zlib.error, `none` for data it accepts. -/
structure GzipObject where
  len : Nat
  out : Nat → ByteStr
  streamEnd : Option Nat
  bad : Option Nat

/-- `decompressor.eof` after the first `n` object bytes have been fed. -/
def GzipObject.eofAt (g : GzipObject) (n : Nat) : Bool :=
  match g.streamEnd with
  | some e => decide (e ≤ n)
  | none => false

/-- Whether a decompress call feeding object bytes `[lo, hi)` raises
zlib.error. -/
def GzipObject.raises (g : GzipObject) (lo hi : Nat) : Bool :=
  match g.bad with
  | some c => decide (lo ≤ c ∧ c < hi)
  | none => false

/-- The per-chunk decompressor outcomes seen by get_lines when the object
described by `g` is fed in successive chunks of the given sizes, starting
after `fed` bytes already consumed.  A zlib.error ends the iteration (the
exception propagates out of the generator, so no further chunk is read). -/
def chunkFeed (g : GzipObject) : Nat → List Nat → List ChunkOutcome
  | _, [] => []
  | fed, k :: ks =>
    if g.raises fed (fed + k) then [ChunkOutcome.err]
    else
      ChunkOutcome.ok ((g.out (fed + k)).drop (g.out fed).length) (g.eofAt (fed + k))
        :: chunkFeed g (fed + k) ks

/-- The header-discarding loop of lambda_handler (lines 41-42):
`for _ in range(n): next(line_iter)`; `none` models the StopIteration that
`next` raises when the line sequence is exhausted early, which propagates and
fails the invocation. -/
def headerSkip : Nat → List α → Option (List α)
  | 0, ls => some ls
  | _ + 1, [] => none
  | n + 1, _ :: ls => headerSkip n ls

/-- Recursion core of `paginate`; the fuel argument only bounds the number of
iterations and is set to the sequence length (each iteration consumes at
least one element, so any fuel at least the length gives the same result). -/
def paginateF : Nat → Nat → List α → List (List α)
  | _, _, [] => []
  | 0, _, _ :: _ => []
  | fuel + 1, p, x :: rest =>
    (x :: rest.take (p - 1)) :: paginateF fuel p (rest.drop (p - 1))

/-- The pagination loop of lambda_handler (lines 44-51): while the line
iterator is nonempty, take the next line as the first element of a page and
chain it with islice(line_iter, p - 1), i.e. at most `p - 1` further lines. -/
def paginate (p : Nat) (l : List α) : List (List α) :=
  paginateF l.length p l

/-- lambda_handler's line-consuming stages on an already produced line
sequence: discard `headerLines` lines (StopIteration when too few), then
group the remainder into pages of `pageSize`. -/
def lambdaPipeline (headerLines pageSize : Nat) (lines : List (List Nat)) :
    Option (List (List (List Nat))) :=
  (headerSkip headerLines lines).map fun ls => paginate pageSize ls

/-- The whole invocation on the given decompressor outcomes: run get_lines,
and if it produced its sequence without error, skip headers and paginate. -/
def fullPipeline (headerLines pageSize : Nat) (outcomes : List ChunkOutcome) :
    Option (List (List (List Nat))) :=
  match runGen [] outcomes with
  | (lines, _, GenEnd.done) => lambdaPipeline headerLines pageSize lines
  | _ => none

/-- State of zlib.decompressobj relevant to the unconsumed_tail refeed:
`fed` is the compressed data consumed into the inflate state so far;
`unconsumed_tail` holds input held back by a max_length-limited decompress
call.  Freshly constructed objects have both empty (source line 83-84). -/
structure Zobj where
  fed : ByteStr
  unconsumed_tail : ByteStr

/-- zlib.decompressobj() as constructed at source line 83. -/
def Zobj.init : Zobj := ⟨[], []⟩

/-- `Decompress.decompress(data)` called with no max_length argument, per the
zlib module contract: all of `data` is consumed into the stream state, the
newly available decompressed bytes are returned (`out` gives the cumulative
output for a given compressed prefix), and `unconsumed_tail` is left empty
(only a max_length-limited call ever populates it). -/
def Zobj.decompress (out : ByteStr → ByteStr) (z : Zobj) (data : ByteStr) :
    ByteStr × Zobj :=
  ((out (z.fed ++ data)).drop (out z.fed).length, ⟨z.fed ++ data, []⟩)

/-- get_lines' decompressor call sequence exactly as written (line 90):
each chunk is fed as `decompressor.unconsumed_tail + chunk`. -/
def runRefeed (out : ByteStr → ByteStr) (z : Zobj) : List ByteStr → List ByteStr × Zobj
  | [] => ([], z)
  | c :: cs =>
    ((z.decompress out (z.unconsumed_tail ++ c)).1 ::
        (runRefeed out (z.decompress out (z.unconsumed_tail ++ c)).2 cs).1,
      (runRefeed out (z.decompress out (z.unconsumed_tail ++ c)).2 cs).2)

/-- The same call sequence feeding each chunk alone. -/
def runPlain (out : ByteStr → ByteStr) (z : Zobj) : List ByteStr → List ByteStr × Zobj
  | [] => ([], z)
  | c :: cs =>
    ((z.decompress out c).1 :: (runPlain out (z.decompress out c).2 cs).1,
      (runPlain out (z.decompress out c).2 cs).2)

/-- Failing input for the leftover-pop logic: an object two chunks long whose
decompressed content is "A\nB", where the first 8 MiB chunk's output ends
exactly on the newline (realizable with gzip: deflate stored blocks make
decompressed bytes available at arbitrary compressed offsets). -/
def gMerge : GzipObject where
  len := 2 * chunkSizeBytes
  out := fun n =>
    if n < chunkSizeBytes then []
    else if n < 2 * chunkSizeBytes then [65, 10]
    else [65, 10, 66]
  streamEnd := some (2 * chunkSizeBytes)
  bad := none

/-- Failing input for the pop-on-empty logic: an object whose first 8 MiB
chunk decompresses to nothing (e.g. a gzip header padded with a long FNAME
field or empty deflate stored blocks), with all content in the second chunk. -/
def gHeaderOnly : GzipObject where
  len := 2 * chunkSizeBytes
  out := fun n => if n < 2 * chunkSizeBytes then [] else [65]
  streamEnd := some (2 * chunkSizeBytes)
  bad := none

/-- A truncated object: 100 bytes of a valid gzip stream for "A\nB" cut off
before the stream completes; the decompressor accepts every byte, produces
the partial output, and never sets eof. -/
def gTruncated : GzipObject where
  len := 100
  out := fun n => if 100 ≤ n then [65, 10, 66] else []
  streamEnd := none
  bad := none

-- sanity checks: evaluate the model on the failing inputs
example : chunkFeed gMerge 0 [chunkSizeBytes, chunkSizeBytes] =
    [ChunkOutcome.ok [65, 10] false, ChunkOutcome.ok [66] true] := by decide
example : runGen [] (chunkFeed gMerge 0 [chunkSizeBytes, chunkSizeBytes]) =
    ([[65, 66]], [65], GenEnd.done) := by decide
example : runGen [] (chunkFeed gMerge 0 [2 * chunkSizeBytes]) =
    ([[65], [66]], [], GenEnd.done) := by decide
example : runGen [] (chunkFeed gHeaderOnly 0 [chunkSizeBytes, chunkSizeBytes]) =
    ([], [], GenEnd.indexError) := by decide
example : runGen [] (chunkFeed gTruncated 0 [100]) =
    ([[65]], [66], GenEnd.done) := by decide
example : paginate 2 [[65], [66], [67], [68], [69]] =
    [[[65], [66]], [[67], [68]], [[69]]] := by decide
example : headerSkip 2 [[104], [105], [65]] = some [[65]] := by decide
example : headerSkip 4 [[104], [105], [65]] = none := by decide

/-- The decompressed content of the spec's worked example,
"h1\nh2\nA\nB\nC\nD\nE\n", as bytes. -/
def exampleStream : ByteStr :=
  [104, 49, 10, 104, 50, 10, 65, 10, 66, 10, 67, 10, 68, 10, 69, 10]

/-- C1: refuted as stated.  On the object gMerge, whose decompressed stream is
"A\nB" with the first 8 MiB chunk's decompressed output ending exactly on the
newline, get_lines completes normally but yields the single line "AB": Python
splitlines drops the final terminator, pop(-1) stores the already complete
line "A" as leftover, and it merges with "B" from the next chunk.  The stream
has two lines ("A" and "B") yet one line is produced, so no reinsertion of
terminators between produced lines can reproduce the 3-byte stream: a line is
corrupted and a terminator byte is dropped. -/
theorem getLines_terminator_at_chunk_boundary_corrupts :
    gMerge.out gMerge.len = [65, 10, 66]
    ∧ splitlines (gMerge.out gMerge.len) = [[65], [66]]
    ∧ runGen [] (chunkFeed gMerge 0 [chunkSizeBytes, chunkSizeBytes]) =
        ([[65, 66]], [65], GenEnd.done)
    ∧ (runGen [] (chunkFeed gMerge 0 [chunkSizeBytes, chunkSizeBytes])).1.length = 1
    ∧ (splitlines (gMerge.out gMerge.len)).length = 2 := by
  refine ⟨by decide, by decide, by decide, by decide, by decide⟩

/-- C2: refuted as stated.  The same compressed object gMerge fed as one
16 MiB chunk yields the two lines "A", "B", but fed as two 8 MiB chunks (the
first decompressing to "A\n") yields the single line "AB": the output depends
on the chunk split points, and popping a candidate that happened to be a
complete line does change the output because its terminator is lost. -/
theorem getLines_output_depends_on_chunk_split :
    runGen [] (chunkFeed gMerge 0 [2 * chunkSizeBytes]) = ([[65], [66]], [], GenEnd.done)
    ∧ runGen [] (chunkFeed gMerge 0 [chunkSizeBytes, chunkSizeBytes]) =
        ([[65, 66]], [65], GenEnd.done)
    ∧ (runGen [] (chunkFeed gMerge 0 [2 * chunkSizeBytes])).1.length = 2
    ∧ (runGen [] (chunkFeed gMerge 0 [chunkSizeBytes, chunkSizeBytes])).1.length = 1 := by
  refine ⟨by decide, by decide, by decide, by decide⟩

/-- C3: refuted as stated.  On the object gHeaderOnly, whose first 8 MiB
chunk decompresses to zero bytes while the leftover is still empty and the
decompressor has not signaled end of stream, the candidate list is empty and
lines.pop(-1) raises IndexError instead of yielding zero lines and
continuing. -/
theorem getLines_zero_output_chunk_pop_fails :
    (chunkFeed gHeaderOnly 0 [chunkSizeBytes, chunkSizeBytes]).head? =
        some (ChunkOutcome.ok [] false)
    ∧ runGen [] (chunkFeed gHeaderOnly 0 [chunkSizeBytes, chunkSizeBytes]) =
        ([], [], GenEnd.indexError) := by
  refine ⟨by decide, by decide⟩

/-- C6 counterexample: a truncated compressed input does not signal a
DecompressionError.  On gTruncated (100 bytes of a valid stream for "A\nB",
cut off before the stream completes) the decompressor raises nothing and
never sets eof, so get_lines pops "B" as leftover, yields only "A", and
terminates silently as if complete when the chunk iterator ends. -/
theorem truncated_stream_ends_silently :
    runGen [] (chunkFeed gTruncated 0 [100]) = ([[65]], [66], GenEnd.done)
    ∧ ((runGen [] (chunkFeed gTruncated 0 [100])).2.2 == GenEnd.decompressionError) = false
    ∧ ((runGen [] (chunkFeed gTruncated 0 [100])).2.2 == GenEnd.done) = true := by
  refine ⟨by decide, by decide, by decide⟩

/-- C8: on an input decompressing to "h1\nh2\nA\nB\nC\nD\nE\n" (one chunk,
well under 8 MiB), with header_lines = 2 and page_size = 2, the pipeline
produces exactly the pages ["A","B"], ["C","D"], ["E"] in order. -/
theorem example_pipeline_pages :
    fullPipeline 2 2 [ChunkOutcome.ok exampleStream true] =
      some [[[65], [66]], [[67], [68]], [[69]]] := by decide

/-- C10: get_lines always calls decompress without max_length, so
unconsumed_tail is empty at every iteration and prepending it to the chunk is
a no-op: the loop as written (runRefeed) is extensionally equal to one
feeding each chunk alone (runPlain), from any state whose unconsumed_tail is
empty — in particular the fresh decompressor get_lines starts from. -/
theorem unconsumed_tail_refeed_is_noop (out : ByteStr → ByteStr) (z : Zobj)
    (cs : List ByteStr) (hz : z.unconsumed_tail = []) :
    runRefeed out z cs = runPlain out z cs
    ∧ (runRefeed out z cs).2.unconsumed_tail = [] := by
  induction cs generalizing z with
  | nil => exact ⟨rfl, hz⟩
  | cons c cs ih =>
    have h2 := ih ⟨z.fed ++ c, []⟩ rfl
    constructor
    · simp only [runRefeed, runPlain, Zobj.decompress, hz, List.nil_append]
      rw [h2.1]
    · simp only [runRefeed, Zobj.decompress, hz, List.nil_append]
      exact h2.2

/-- Witness for C10 at a concrete decompression function and chunk list. -/
theorem unconsumed_tail_refeed_is_noop_witness :
    runRefeed (fun l => l) Zobj.init [[0], [1]] = runPlain (fun l => l) Zobj.init [[0], [1]]
    ∧ (runRefeed (fun l => l) Zobj.init [[0], [1]]).2.unconsumed_tail = [] :=
  unconsumed_tail_refeed_is_noop (fun l => l) Zobj.init [[0], [1]] rfl

/-- Unfolding runGen on an eof chunk whose candidates all decode. -/
theorem runGen_eof_good (l delta : ByteStr) (rest : List ChunkOutcome)
    (hyd : (yieldDecoded (splitlines (l ++ delta))).2 = true) :
    runGen l (ChunkOutcome.ok delta true :: rest) =
      ((yieldDecoded (splitlines (l ++ delta))).1 ++ (runGen l rest).1,
        (runGen l rest).2) := by
  simp [runGen, hyd]

/-- Unfolding runGen on a non-eof chunk with nonempty candidate list whose
yielded candidates all decode. -/
theorem runGen_mid_good (l delta : ByteStr) (rest : List ChunkOutcome) (last : ByteStr)
    (hlast : (splitlines (l ++ delta)).getLast? = some last)
    (hyd : (yieldDecoded (splitlines (l ++ delta)).dropLast).2 = true) :
    runGen l (ChunkOutcome.ok delta false :: rest) =
      ((yieldDecoded (splitlines (l ++ delta)).dropLast).1 ++ (runGen last rest).1,
        (runGen last rest).2) := by
  simp [runGen, hlast, hyd]

/-- C6 (amended): a decompress call that raises zlib.error aborts the
generator: whatever chunks would follow the corrupt one contribute nothing,
the values yielded are exactly those of the preceding clean chunks, and the
sequence ends with the DecompressionError (the hypothesis states that the
preceding chunks run to completion without error).  The truncation half of
the original claim is dropped: see truncated_stream_ends_silently. -/
theorem decompression_error_aborts_sequence (l : ByteStr) (outs rest : List ChunkOutcome)
    (h : (runGen l outs).2.2 = GenEnd.done) :
    runGen l (outs ++ ChunkOutcome.err :: rest) =
      ((runGen l outs).1, (runGen l outs).2.1, GenEnd.decompressionError) := by
  induction outs generalizing l with
  | nil => rfl
  | cons o outs ih =>
    cases o with
    | err => simp [runGen] at h
    | ok delta eof =>
      cases eof with
      | true =>
        cases hyd : (yieldDecoded (splitlines (l ++ delta))).2 with
        | true =>
          rw [runGen_eof_good l delta outs hyd] at h
          simp only [List.cons_append]
          rw [runGen_eof_good l delta (outs ++ ChunkOutcome.err :: rest) hyd]
          simp only at h
          rw [ih l h]
          simp [runGen_eof_good l delta outs hyd]
        | false =>
          simp [runGen, hyd] at h
      | false =>
        cases hlast : (splitlines (l ++ delta)).getLast? with
        | none => simp [runGen, hlast] at h
        | some last =>
          cases hyd : (yieldDecoded (splitlines (l ++ delta)).dropLast).2 with
          | true =>
            rw [runGen_mid_good l delta outs last hlast hyd] at h
            simp only [List.cons_append]
            rw [runGen_mid_good l delta (outs ++ ChunkOutcome.err :: rest) last hlast hyd]
            simp only at h
            rw [ih last h]
            simp [runGen_mid_good l delta outs last hlast hyd]
          | false =>
            simp [runGen, hlast, hyd] at h

/-- Witness for C6 (amended): one clean chunk yielding "A", then a corrupt
chunk; the generator yields "A" and ends with the DecompressionError, never
touching the chunk after the corruption. -/
theorem decompression_error_aborts_sequence_witness :
    (runGen [] [ChunkOutcome.ok [65, 10] true]).2.2 = GenEnd.done
    ∧ runGen []
        ([ChunkOutcome.ok [65, 10] true] ++
          ChunkOutcome.err :: [ChunkOutcome.ok [66] true]) =
      ((runGen [] [ChunkOutcome.ok [65, 10] true]).1,
        (runGen [] [ChunkOutcome.ok [65, 10] true]).2.1, GenEnd.decompressionError) :=
  ⟨by decide, decompression_error_aborts_sequence [] [ChunkOutcome.ok [65, 10] true]
      [ChunkOutcome.ok [66] true] (by decide)⟩

/-- The yield loop on a candidate list whose first undecodable candidate is
`bad`: every candidate before `bad` is yielded decoded, then the generator
aborts with no value for `bad` and nothing after it. -/
theorem yieldDecoded_append_bad (pre : List ByteStr) (bad : ByteStr) (post : List ByteStr)
    (hpre : ∀ c ∈ pre, (utf8Decode c).isSome = true) (hbad : utf8Decode bad = none) :
    yieldDecoded (pre ++ bad :: post) = (pre.filterMap utf8Decode, false) := by
  induction pre with
  | nil => simp [yieldDecoded, hbad]
  | cons c cs ih =>
    have hc := hpre c (by simp)
    obtain ⟨s, hs⟩ := Option.isSome_iff_exists.mp hc
    have ihh := ih fun x hx => hpre x (by simp [hx])
    simp [yieldDecoded, hs, ihh, List.filterMap_cons]

/-- C7: if the candidates yielded for a chunk (all of them on the final
chunk, all but the popped leftover otherwise) contain a candidate that is not
valid UTF-8, with every earlier candidate valid, then get_lines yields
exactly the decoded earlier candidates — no partial value for the bad one and
nothing from any later chunk — and the generator ends with the
UnicodeDecodeError (the spec's FormatError/EncodingError). -/
theorem invalid_utf8_candidate_aborts_sequence (l delta : ByteStr) (eof : Bool)
    (rest : List ChunkOutcome) (pre : List ByteStr) (bad : ByteStr) (post : List ByteStr)
    (hc : (if eof then splitlines (l ++ delta) else (splitlines (l ++ delta)).dropLast)
        = pre ++ bad :: post)
    (hpre : ∀ c ∈ pre, (utf8Decode c).isSome = true)
    (hbad : utf8Decode bad = none) :
    (runGen l (ChunkOutcome.ok delta eof :: rest)).1 = pre.filterMap utf8Decode
    ∧ (runGen l (ChunkOutcome.ok delta eof :: rest)).2.2 = GenEnd.encodingError := by
  have hyd := yieldDecoded_append_bad pre bad post hpre hbad
  cases eof with
  | true =>
    simp only [if_pos] at hc
    rw [← hc] at hyd
    simp [runGen, hyd]
  | false =>
    simp only [Bool.false_eq_true, if_false] at hc
    cases hlast : (splitlines (l ++ delta)).getLast? with
    | none =>
      rw [List.getLast?_eq_none_iff] at hlast
      rw [hlast] at hc
      simp at hc
    | some last =>
      rw [← hc] at hyd
      simp [runGen, hlast, hyd]

/-- Witness for C7: one final chunk decompressing to "A\n<0xFF>\nB\n"; the
generator yields "A", then aborts with the decode error, yielding nothing for
the invalid candidate and nothing after it. -/
theorem invalid_utf8_candidate_aborts_sequence_witness :
    ((if true then splitlines ([] ++ [65, 10, 255, 10, 66, 10])
        else (splitlines ([] ++ [65, 10, 255, 10, 66, 10])).dropLast)
      = [[65]] ++ [255] :: [[66]])
    ∧ (∀ c ∈ [[65]], (utf8Decode c).isSome = true)
    ∧ utf8Decode [255] = none
    ∧ (runGen [] [ChunkOutcome.ok [65, 10, 255, 10, 66, 10] true]).1 =
        [[65]].filterMap utf8Decode
    ∧ (runGen [] [ChunkOutcome.ok [65, 10, 255, 10, 66, 10] true]).2.2 =
        GenEnd.encodingError :=
  ⟨by decide, by decide, by decide,
    (invalid_utf8_candidate_aborts_sequence [] [65, 10, 255, 10, 66, 10] true []
        [[65]] [255] [[66]] (by decide) (by decide) (by decide)).1,
    (invalid_utf8_candidate_aborts_sequence [] [65, 10, 255, 10, 66, 10] true []
        [[65]] [255] [[66]] (by decide) (by decide) (by decide)).2⟩

/-- If fewer lines are available than requested, the header-skip loop's
next() raises StopIteration. -/
theorem headerSkip_eq_none_of_short (n : Nat) (ls : List α) (h : ls.length < n) :
    headerSkip n ls = none := by
  induction n generalizing ls with
  | zero => omega
  | succ n ih =>
    cases ls with
    | nil => rfl
    | cons x ls =>
      exact ih ls (by simp at h; omega)

/-- C5: when the line sequence is exhausted before the configured number of
header lines is produced, next() raises StopIteration (the spec's
UnexpectedEndOfStream), the invocation fails, and no pages are produced;
with a header count of zero the skipping step is the identity. -/
theorem headerSkip_exhausted_signals_error (n pageSize : Nat) (lines : List (List Nat))
    (h : lines.length < n) :
    lambdaPipeline n pageSize lines = none
    ∧ ∀ ls : List (List Nat), headerSkip 0 ls = some ls := by
  refine ⟨?_, fun ls => rfl⟩
  simp [lambdaPipeline, headerSkip_eq_none_of_short n lines h]

theorem paginateF_nil (n p : Nat) : paginateF n p ([] : List α) = [] := by
  cases n <;> rfl

/-- Concatenating the pages reproduces the line sequence. -/
theorem paginateF_join (p : Nat) :
    ∀ (n : Nat) (l : List α), l.length ≤ n → (paginateF n p l).flatten = l := by
  intro n
  induction n with
  | zero =>
    intro l h
    have : l = [] := List.length_eq_zero.mp (Nat.le_zero.mp h)
    simp [this, paginateF_nil]
  | succ n ih =>
    intro l h
    cases l with
    | nil => simp [paginateF_nil]
    | cons x rest =>
      have hd : (rest.drop (p - 1)).length ≤ n := by
        simp only [List.length_drop]
        simp only [List.length_cons] at h
        omega
      simp only [paginateF, List.flatten_cons, ih (rest.drop (p - 1)) hd, List.cons_append]
      rw [List.take_append_drop]

/-- The number of pages is the line count divided by the page size, rounded
up. -/
theorem paginateF_length (p : Nat) (hp : 1 ≤ p) :
    ∀ (n : Nat) (l : List α), l.length ≤ n →
      (paginateF n p l).length = (l.length + p - 1) / p := by
  intro n
  induction n with
  | zero =>
    intro l h
    have hl0 : l = [] := List.length_eq_zero.mp (Nat.le_zero.mp h)
    subst hl0
    rw [paginateF_nil]
    simp only [List.length_nil, Nat.zero_add]
    rw [Nat.div_eq_of_lt (by omega)]
  | succ n ih =>
    intro l h
    cases l with
    | nil =>
      rw [paginateF_nil]
      simp only [List.length_nil, Nat.zero_add]
      rw [Nat.div_eq_of_lt (by omega)]
    | cons x rest =>
      have hd : (rest.drop (p - 1)).length ≤ n := by
        simp only [List.length_drop]
        simp only [List.length_cons] at h
        omega
      simp only [paginateF, List.length_cons, ih (rest.drop (p - 1)) hd, List.length_drop]
      rcases le_or_lt (p - 1) rest.length with hle | hlt
      · have h1 : rest.length - (p - 1) + p - 1 = rest.length := by omega
        have h2 : rest.length + 1 + p - 1 = rest.length + p := by omega
        rw [h1, h2, Nat.add_div_right _ (by omega)]
      · have h1 : rest.length - (p - 1) + p - 1 = p - 1 := by omega
        have h2 : rest.length + 1 + p - 1 = rest.length + p := by omega
        rw [h1, h2, Nat.add_div_right _ (by omega), Nat.div_eq_of_lt (by omega),
          Nat.div_eq_of_lt (by omega)]

/-- Every page holds between 1 and p lines. -/
theorem paginateF_mem_length (p : Nat) (hp : 1 ≤ p) :
    ∀ (n : Nat) (l : List α), l.length ≤ n →
      ∀ pg ∈ paginateF n p l, 1 ≤ pg.length ∧ pg.length ≤ p := by
  intro n
  induction n with
  | zero =>
    intro l h pg hpg
    have : l = [] := List.length_eq_zero.mp (Nat.le_zero.mp h)
    subst this
    simp [paginateF_nil] at hpg
  | succ n ih =>
    intro l h pg hpg
    cases l with
    | nil => simp [paginateF_nil] at hpg
    | cons x rest =>
      have hd : (rest.drop (p - 1)).length ≤ n := by
        simp only [List.length_drop]
        simp only [List.length_cons] at h
        omega
      simp only [paginateF, List.mem_cons] at hpg
      rcases hpg with hpg | hpg
      · subst hpg
        simp only [List.length_cons, List.length_take]
        omega
      · exact ih (rest.drop (p - 1)) hd pg hpg

/-- Every page except possibly the last holds exactly p lines. -/
theorem paginateF_getD (p : Nat) (hp : 1 ≤ p) :
    ∀ (n : Nat) (l : List α) (i : Nat), l.length ≤ n →
      i + 1 < (paginateF n p l).length → ((paginateF n p l).getD i []).length = p := by
  intro n
  induction n with
  | zero =>
    intro l i h hi
    have : l = [] := List.length_eq_zero.mp (Nat.le_zero.mp h)
    subst this
    simp [paginateF_nil] at hi
  | succ n ih =>
    intro l i h hi
    cases l with
    | nil => simp [paginateF_nil] at hi
    | cons x rest =>
      have hd : (rest.drop (p - 1)).length ≤ n := by
        simp only [List.length_drop]
        simp only [List.length_cons] at h
        omega
      cases i with
      | zero =>
        have hne : rest.drop (p - 1) ≠ [] := by
          intro he
          simp only [paginateF, he, paginateF_nil, List.length_cons, List.length_nil] at hi
          omega
        have hlen : 0 < rest.length - (p - 1) := by
          have := List.length_pos.mpr hne
          simpa using this
        simp only [paginateF, List.getD_cons_zero, List.length_cons, List.length_take]
        omega
      | succ i =>
        simp only [paginateF, List.getD_cons_succ, List.length_cons] at hi ⊢
        exact ih (rest.drop (p - 1)) i hd (by omega)

/-- C4: for page size p at least 1, the chain/islice pagination loop produces
ceil(L/p) pages (zero when the post-header sequence is empty), every page
holds between 1 and p lines with every page but the last holding exactly p,
and concatenating the pages in order reproduces the line sequence. -/
theorem paginate_produces_ceil_pages (p : Nat) (hp : 1 ≤ p) (l : List (List Nat)) :
    (paginate p l).flatten = l
    ∧ (paginate p l).length = (l.length + p - 1) / p
    ∧ (∀ pg ∈ paginate p l, 1 ≤ pg.length ∧ pg.length ≤ p)
    ∧ (∀ i, i + 1 < (paginate p l).length → ((paginate p l).getD i []).length = p)
    ∧ paginate p ([] : List (List Nat)) = [] :=
  ⟨paginateF_join p l.length l Nat.le.refl,
    paginateF_length p hp l.length l Nat.le.refl,
    paginateF_mem_length p hp l.length l Nat.le.refl,
    fun i hi => paginateF_getD p hp l.length l i Nat.le.refl hi,
    rfl⟩

/-- Witness for C4 at page size 2 and a three-line sequence. -/
theorem paginate_produces_ceil_pages_witness :
    1 ≤ 2
    ∧ ((paginate 2 [[65], [66], [67]]).flatten = [[65], [66], [67]]
      ∧ (paginate 2 [[65], [66], [67]]).length = ([[65], [66], [67]].length + 2 - 1) / 2
      ∧ (∀ pg ∈ paginate 2 [[65], [66], [67]], 1 ≤ pg.length ∧ pg.length ≤ 2)
      ∧ (∀ i, i + 1 < (paginate 2 [[65], [66], [67]]).length →
          ((paginate 2 [[65], [66], [67]]).getD i []).length = 2)
      ∧ paginate 2 ([] : List (List Nat)) = []) :=
  ⟨by decide, paginate_produces_ceil_pages 2 (by decide) [[65], [66], [67]]⟩

/-- Witness for C5: three header lines requested from a one-line sequence. -/
theorem headerSkip_exhausted_signals_error_witness :
    [[65]].length < 3
    ∧ (lambdaPipeline 3 2 [[65]] = none
        ∧ ∀ ls : List (List Nat), headerSkip 0 ls = some ls) :=
  ⟨by decide, headerSkip_exhausted_signals_error 3 2 [[65]] (by decide)⟩

/-- Unfolding splitlines on a head byte that is not a line terminator: the
byte is prepended to the first line of the tail's split (or starts the sole
line if the tail splits to nothing). -/
theorem splitlines_cons_other (b : Nat) (t : ByteStr) (h1 : b ≠ 10) (h2 : b ≠ 13) :
    splitlines (b :: t) = match splitlines t with
      | [] => [[b]]
      | l :: ls => (b :: l) :: ls := by
  rw [splitlines.eq_def]
  split
  · simp_all
  · simp_all
  · simp_all
  · simp_all
  · rename_i heq
    cases heq
    rfl

/-- A terminator-free prefix followed by LF starts its own line. -/
theorem splitlines_append_lf (l : ByteStr) :
    noTerm l = true → ∀ rest, splitlines (l ++ 10 :: rest) = l :: splitlines rest := by
  induction l with
  | nil => intro _ rest; rfl
  | cons b l2 ih =>
    intro hl rest
    simp only [noTerm, Bool.and_eq_true, decide_eq_true_eq] at hl
    rw [List.cons_append, splitlines_cons_other b _ hl.1.1 hl.1.2, ih hl.2 rest]

/-- A terminator-free prefix followed by CRLF starts its own line: the pair
counts as one terminator. -/
theorem splitlines_append_crlf (l : ByteStr) :
    noTerm l = true → ∀ rest, splitlines (l ++ 13 :: 10 :: rest) = l :: splitlines rest := by
  induction l with
  | nil => intro _ rest; rfl
  | cons b l2 ih =>
    intro hl rest
    simp only [noTerm, Bool.and_eq_true, decide_eq_true_eq] at hl
    rw [List.cons_append, splitlines_cons_other b _ hl.1.1 hl.1.2, ih hl.2 rest]

/-- A terminator-free prefix followed by a bare CR (not part of CRLF) starts
its own line. -/
theorem splitlines_append_cr (l : ByteStr) :
    noTerm l = true → ∀ rest, headLF rest = false →
      splitlines (l ++ 13 :: rest) = l :: splitlines rest := by
  induction l with
  | nil =>
    intro _ rest hr
    rw [splitlines.eq_def]
    split
    · simp_all
    · simp_all
    · rename_i heq
      cases heq
      simp [headLF] at hr
    · rename_i heq
      cases heq
      rfl
    · simp_all
  | cons b l2 ih =>
    intro hl rest hr
    simp only [noTerm, Bool.and_eq_true, decide_eq_true_eq] at hl
    rw [List.cons_append, splitlines_cons_other b _ hl.1.1 hl.1.2, ih hl.2 rest hr]

/-- C9: the line-candidate split of get_lines has Python bytes.splitlines
semantics: LF, bare CR and CRLF each terminate a line (for a terminator-free
line body l and any continuation), consecutive terminators produce empty
lines in their positions, and a terminator at the very end of the data does
not produce a trailing empty line. -/
theorem splitlines_terminator_semantics (l rest : ByteStr)
    (hl : noTerm l = true) (hr : headLF rest = false) :
    splitlines (l ++ 10 :: rest) = l :: splitlines rest
    ∧ splitlines (l ++ 13 :: 10 :: rest) = l :: splitlines rest
    ∧ splitlines (l ++ 13 :: rest) = l :: splitlines rest
    ∧ splitlines (l ++ [10]) = [l]
    ∧ splitlines (l ++ [13, 10]) = [l]
    ∧ splitlines (l ++ [10, 10]) = [l, []] := by
  refine ⟨splitlines_append_lf l hl rest, splitlines_append_crlf l hl rest,
    splitlines_append_cr l hl rest hr, ?_, ?_, ?_⟩
  · rw [splitlines_append_lf l hl []]
    rfl
  · rw [splitlines_append_crlf l hl []]
    rfl
  · rw [splitlines_append_lf l hl [10]]
    rfl

/-- Witness for C9 with line body "a" and continuation "b". -/
theorem splitlines_terminator_semantics_witness :
    noTerm [97] = true
    ∧ headLF [98] = false
    ∧ (splitlines ([97] ++ 10 :: [98]) = [97] :: splitlines [98]
      ∧ splitlines ([97] ++ 13 :: 10 :: [98]) = [97] :: splitlines [98]
      ∧ splitlines ([97] ++ 13 :: [98]) = [97] :: splitlines [98]
      ∧ splitlines ([97] ++ [10]) = [[97]]
      ∧ splitlines ([97] ++ [13, 10]) = [[97]]
      ∧ splitlines ([97] ++ [10, 10]) = [[97], []]) :=
  ⟨by decide, by decide, splitlines_terminator_semantics [97] [98] (by decide) (by decide)⟩
